import Mathlib

/-!
Verification development for a wallet-controllers repository.

Part 1 models the `PreferencesController` (identities, lost identities,
selected address, tokens, feature flags).  JavaScript objects keyed by
address strings are modelled as association lists that preserve insertion
order (as JavaScript objects do for non-index string keys); assigning to
an existing key updates the value in place, assigning to a fresh key
appends at the end.  A record field that may be absent on a JavaScript
object (such as the `address` field of an identity created by
`setAccountLabel` for an unknown address) is modelled as an `Option`.
The external checksum-normalization collaborator (`toChecksumAddress`) is
out of scope in the source, so every operation is parameterized by an
arbitrary function `checksum : String → String`.

Part 2 models the two `ERC721Standard` variants (address dispatch and
bound contract methods) as pure functions over a contract's remote-call
response tables, returning the `Except` outcome together with the list of
remote calls issued.
-/

/-- An identity record: `{ name, address }`, each field possibly absent. -/
structure ContactEntry where
  name : Option String
  address : Option String
deriving DecidableEq, Repr

/-- A watched token: `{ address, symbol, decimals }`. -/
structure Token where
  address : String
  symbol : String
  decimals : Int
deriving DecidableEq, Repr

/-- The `PreferencesState` of the controller. -/
structure PreferencesState where
  featureFlags : List (String × Bool)
  identities : List (String × ContactEntry)
  lostIdentities : List (String × ContactEntry)
  selectedAddress : Option String
  tokens : List Token
deriving DecidableEq, Repr

/-- Reading `obj[k]` on an insertion-ordered object: first matching key. -/
def lookupId : List (String × ContactEntry) → String → Option ContactEntry
  | [], _ => none
  | p :: ps, k => if p.1 = k then some p.2 else lookupId ps k

/-- Writing `obj[k] = v`: update in place if the key exists, else append. -/
def insertId : List (String × ContactEntry) → String → ContactEntry → List (String × ContactEntry)
  | [], k, v => [(k, v)]
  | p :: ps, k, v => if p.1 = k then (k, v) :: ps else p :: insertId ps k v

/-- `delete obj[k]`. -/
def removeId : List (String × ContactEntry) → String → List (String × ContactEntry)
  | [], _ => []
  | p :: ps, k => if p.1 = k then removeId ps k else p :: removeId ps k

/-- Boolean list membership, `addresses.indexOf(x) !== -1`. -/
def memB : List String → String → Bool
  | [], _ => false
  | x :: xs, a => if x = a then true else memB xs a

/-- The entries whose key occurs in `A` (insertion order kept). -/
def keepIn : List (String × ContactEntry) → List String → List (String × ContactEntry)
  | [], _ => []
  | p :: ps, A => if memB A p.1 then p :: keepIn ps A else keepIn ps A

/-- The entries whose key does not occur in `A` (insertion order kept). -/
def dropIn : List (String × ContactEntry) → List String → List (String × ContactEntry)
  | [], _ => []
  | p :: ps, A => if memB A p.1 then dropIn ps A else p :: dropIn ps A

/-- Writing every pair of `ps` into `acc` in order. -/
def insertAll (acc : List (String × ContactEntry)) (ps : List (String × ContactEntry)) :
    List (String × ContactEntry) :=
  ps.foldl (fun m p => insertId m p.1 p.2) acc

/-- The default identity record `{ name: "Account n", address: a }`. -/
def freshEntry (a : String) (n : Nat) : ContactEntry :=
  ⟨some ("Account " ++ toString n), some a⟩

/-- `defaultState` of the controller. -/
def initialState : PreferencesState :=
  { featureFlags := [], identities := [], lostIdentities := [],
    selectedAddress := some "", tokens := [] }

/-- The loop body of `addIdentities`: for each address, checksum it, skip it
if already a key, otherwise insert a default identity numbered from the
current key count plus one. -/
def addIdentitiesLoop (checksum : String → String) :
    List String → List (String × ContactEntry) → List (String × ContactEntry)
  | [], ids => ids
  | a :: rest, ids =>
    let ca := checksum a
    match lookupId ids ca with
    | some _ => addIdentitiesLoop checksum rest ids
    | none => addIdentitiesLoop checksum rest (insertId ids ca (freshEntry ca (ids.length + 1)))

/-- `PreferencesController.addIdentities`. -/
def addIdentities (checksum : String → String) (s : PreferencesState)
    (addresses : List String) : PreferencesState :=
  { s with identities := addIdentitiesLoop checksum addresses s.identities }

/-- Whether some token in the list has the given (checksummed) address;
mirrors `tokens.find((token) => token.address === address)` being defined. -/
def hasTokenAddr : List Token → String → Bool
  | [], _ => false
  | t :: ts, a => if t.address = a then true else hasTokenAddr ts a

/-- Replacing the first token whose address matches, in place. -/
def replaceFirstToken : List Token → String → Token → List Token
  | [], _, _ => []
  | t :: ts, a, ne => if t.address = a then ne :: ts else t :: replaceFirstToken ts a ne

/-- `PreferencesController.addToken`; returns the new state and the
returned token list. -/
def addToken (checksum : String → String) (s : PreferencesState)
    (address symbol : String) (decimals : Int) : PreferencesState × List Token :=
  let a := checksum address
  let newEntry : Token := ⟨a, symbol, decimals⟩
  let tokens :=
    if hasTokenAddr s.tokens a then replaceFirstToken s.tokens a newEntry
    else s.tokens ++ [newEntry]
  ({ s with tokens := tokens }, tokens)

/-- `PreferencesController.removeIdentity`. -/
def removeIdentity (checksum : String → String) (s : PreferencesState)
    (address : String) : PreferencesState :=
  let a := checksum address
  match lookupId s.identities a with
  | none => s
  | some _ =>
    let identities := removeId s.identities a
    let s1 := { s with identities := identities }
    if s1.selectedAddress = some a then
      { s1 with selectedAddress := identities.head?.map Prod.fst }
    else s1

/-- Dropping every token with the given checksummed address. -/
def removeTokensByAddress : List Token → String → List Token
  | [], _ => []
  | t :: ts, a => if t.address = a then removeTokensByAddress ts a else t :: removeTokensByAddress ts a

/-- `PreferencesController.removeToken`. -/
def removeToken (checksum : String → String) (s : PreferencesState)
    (address : String) : PreferencesState :=
  { s with tokens := removeTokensByAddress s.tokens (checksum address) }

/-- `PreferencesController.setAccountLabel`: `identities[a] = identities[a] || {}`
then `identities[a].name = label`.  For an unknown address this creates a
record whose `address` field is absent. -/
def setAccountLabel (checksum : String → String) (s : PreferencesState)
    (address label : String) : PreferencesState :=
  let a := checksum address
  let prev : ContactEntry := (lookupId s.identities a).getD ⟨none, none⟩
  { s with identities := insertId s.identities a { prev with name := some label } }

/-- Merging a single flag into the flag map (existing key keeps its
position, fresh key appended), as the object spread in the source does. -/
def insertFlag : List (String × Bool) → String → Bool → List (String × Bool)
  | [], k, v => [(k, v)]
  | p :: ps, k, v => if p.1 = k then (k, v) :: ps else p :: insertFlag ps k v

/-- `PreferencesController.setFeatureFlag`. -/
def setFeatureFlag (s : PreferencesState) (feature : String) (activated : Bool) :
    PreferencesState :=
  { s with featureFlags := insertFlag s.featureFlags feature activated }

/-- `PreferencesController.syncIdentities`; returns the new state and the
returned newly-selected address. -/
def syncIdentities (checksum : String → String) (s : PreferencesState)
    (addresses : List String) : PreferencesState × Option String :=
  let A := addresses.map checksum
  let newlyLost := dropIn s.identities A
  let identities1 := keepIn s.identities A
  let lost1 := insertAll s.lostIdentities newlyLost
  let s1 := { s with identities := identities1, lostIdentities := lost1 }
  let s2 := addIdentities checksum s1 A
  let reassign : Bool :=
    match s2.selectedAddress with
    | some sa => ! memB A sa
    | none => true
  let s3 := if reassign then { s2 with selectedAddress := A.head? } else s2
  (s3, s3.selectedAddress)

/-- The sum of the absent-field overlay used by `updateIdentities`: the old
record's field wins when present, else the freshly generated default. -/
def overlayField : Option String → Option String → Option String
  | some x, _ => some x
  | none, d => d

/-- The identity record `updateIdentities` stores for address `a` at
one-based position `n`: the fresh default `{ address: a, name: "Account n" }`
with the old record's present fields overlaid on top. -/
def mergedEntry (old : List (String × ContactEntry)) (a : String) (n : Nat) : ContactEntry :=
  match lookupId old a with
  | some o => ⟨overlayField o.name (some ("Account " ++ toString n)),
               overlayField o.address (some a)⟩
  | none => freshEntry a n

/-- The reduce of `updateIdentities`, building the replacement map. -/
def buildIds (old : List (String × ContactEntry)) :
    List String → Nat → List (String × ContactEntry) → List (String × ContactEntry)
  | [], _, acc => acc
  | a :: rest, i, acc =>
    buildIds old rest (i + 1) (insertId acc a (mergedEntry old a (i + 1)))

/-- `PreferencesController.updateIdentities`. -/
def updateIdentities (checksum : String → String) (s : PreferencesState)
    (addresses : List String) : PreferencesState :=
  let A := addresses.map checksum
  { s with identities := buildIds s.identities A 0 [] }

/-- The states reachable from the default state through the controller's
public mutators, for a fixed checksum-normalization function. -/
inductive Reachable (checksum : String → String) : PreferencesState → Prop where
  | init : Reachable checksum initialState
  | stepAddIdentities {s} (addrs : List String) :
      Reachable checksum s → Reachable checksum (addIdentities checksum s addrs)
  | stepAddToken {s} (a sym : String) (d : Int) :
      Reachable checksum s → Reachable checksum (addToken checksum s a sym d).1
  | stepRemoveIdentity {s} (a : String) :
      Reachable checksum s → Reachable checksum (removeIdentity checksum s a)
  | stepRemoveToken {s} (a : String) :
      Reachable checksum s → Reachable checksum (removeToken checksum s a)
  | stepSetAccountLabel {s} (a l : String) :
      Reachable checksum s → Reachable checksum (setAccountLabel checksum s a l)
  | stepSetFeatureFlag {s} (f : String) (b : Bool) :
      Reachable checksum s → Reachable checksum (setFeatureFlag s f b)
  | stepSyncIdentities {s} (addrs : List String) :
      Reachable checksum s → Reachable checksum (syncIdentities checksum s addrs).1
  | stepUpdateIdentities {s} (addrs : List String) :
      Reachable checksum s → Reachable checksum (updateIdentities checksum s addrs)

/-- The property claimed as the key invariant: every key of `identities`
equals the checksummed form of the `address` field stored under it (false
as stated, because `setAccountLabel` can store a record with no `address`
field at all). -/
def keyMatchesAddressField (checksum : String → String) (s : PreferencesState) : Bool :=
  s.identities.all (fun p =>
    match p.2.address with
    | some x => checksum x = p.1
    | none => false)

/-- The selected address is never a dangling nonempty address: it is
either unset, the empty string, or a key of `identities`. -/
def noDangling (s : PreferencesState) : Bool :=
  match s.selectedAddress with
  | none => true
  | some k => k = "" || (lookupId s.identities k).isSome

/-- Internal invariant carried through the reachability induction: the
identity keys are distinct, and every stored record either has no
`address` field or stores exactly its own key, a checksum fixed point. -/
def identitiesInv (checksum : String → String) (s : PreferencesState) : Prop :=
  (s.identities.map Prod.fst).Nodup ∧
  ∀ k e, lookupId s.identities k = some e →
    e.address = none ∨ (e.address = some k ∧ checksum k = k)

/-- A concrete sample state with two identities and `0x1` selected. -/
def entry1 : ContactEntry := ⟨some "Account 1", some "0x1"⟩

/-- The second sample identity record. -/
def entry2 : ContactEntry := ⟨some "Account 2", some "0x2"⟩

/-- Sample state: identities `0x1`, `0x2`; `0x1` selected. -/
def twoIdState : PreferencesState :=
  { featureFlags := [], identities := [("0x1", entry1), ("0x2", entry2)],
    lostIdentities := [], selectedAddress := some "0x1", tokens := [] }

/-- A sample checksum function under which `0xabc` and `0xABC` normalize
to the same checksummed form `0xAbC`; idempotent. -/
def sampleChecksum : String → String := fun s =>
  if s = "0xabc" then "0xAbC" else if s = "0xABC" then "0xAbC" else s

/-- The ERC721Metadata interface identifier constant. -/
def ERC721_METADATA_INTERFACE_ID : String := "0x5b5e139f"

/-- The ERC721Enumerable interface identifier constant. -/
def ERC721_ENUMERABLE_INTERFACE_ID : String := "0x780e9d63"

/-- Modelled from the spec: the base ERC-721 interface identifier constant,
imported by the source from a constants module that is not part of the
provided sources (a fixed 4-byte hex selector, never computed at runtime). -/
def ERC721_INTERFACE_ID : String := "0x80ac58cd"

/-- Modelled from the spec: the standard-name string constant used to tag
aggregate results, imported from the same missing constants module. -/
def ERC721 : String := "ERC721"

/-- An apostrophe character, used to spell error-message literals. -/
def apos : String := String.singleton (Char.ofNat 39)

/-- The fixed domain error of the metadata-interface precondition. -/
def metadataUnsupportedMsg : String :=
  "Contract does not support ERC721 metadata interface."

/-- The fixed domain error thrown by `getDetails` for a contract that does
not implement base ERC-721 (the source message contains an apostrophe). -/
def notValidERC721Msg : String :=
  "This isn" ++ apos ++ "t a valid ERC721 contract"

/-- A deployed contract, modelled by its remote-call response tables: each
method either rejects with an error message or resolves with a result. -/
structure Erc721Contract where
  supportsInterfaceResp : String → Except String Bool
  tokenURIResp : String → Except String String
  nameResp : Except String String
  symbolResp : Except String String
  ownerOfResp : String → Except String String
  tokenOfOwnerByIndexResp : String → Nat → Except String String

/-- One remote contract call, for counting round trips. -/
inductive RemoteCall where
  | supportsInterface (interfaceId : String)
  | tokenURICall (tokenId : String)
  | nameCall
  | symbolCall
  | ownerOfCall (tokenId : String)
  | tokenOfOwnerByIndexCall (owner : String) (index : Nat)
deriving DecidableEq, Repr

/-- The aggregate returned by `getDetails`. -/
structure AssetDetails where
  standard : String
  tokenURI : Option String
  symbol : Option String
  name : Option String
deriving DecidableEq, Repr

/-- Bound-methods variant `ERC721Standard.contractSupportsInterface`: one
remote call, whose boolean is returned and whose error is propagated. -/
def contractSupportsInterfaceBound (c : Erc721Contract) (interfaceId : String) :
    Except String Bool × List RemoteCall :=
  (c.supportsInterfaceResp interfaceId, [RemoteCall.supportsInterface interfaceId])

/-- Bound-methods variant `contractSupportsMetadataInterface`. -/
def contractSupportsMetadataInterfaceBound (c : Erc721Contract) :
    Except String Bool × List RemoteCall :=
  contractSupportsInterfaceBound c ERC721_METADATA_INTERFACE_ID

/-- Bound-methods variant `getCollectibleTokenURI`: checks metadata-interface
support first; if unsupported, throws the fixed domain error without the
tokenURI call; otherwise issues the tokenURI call. -/
def getCollectibleTokenURI (c : Erc721Contract) (tokenId : String) :
    Except String String × List RemoteCall :=
  match contractSupportsMetadataInterfaceBound c with
  | (Except.error e, log) => (Except.error e, log)
  | (Except.ok supportsMetadata, log) =>
    if supportsMetadata then
      (c.tokenURIResp tokenId, log ++ [RemoteCall.tokenURICall tokenId])
    else (Except.error metadataUnsupportedMsg, log)

/-- Address-dispatch variant `ERC721Standard.contractSupportsInterface`:
the world `w` maps a contract address to the contract behind it. -/
def contractSupportsInterfaceAddr (w : String → Erc721Contract)
    (address interfaceId : String) : Except String Bool × List RemoteCall :=
  ((w address).supportsInterfaceResp interfaceId,
   [RemoteCall.supportsInterface interfaceId])

/-- Address-dispatch variant `contractSupportsMetadataInterface`. -/
def contractSupportsMetadataInterfaceAddr (w : String → Erc721Contract)
    (address : String) : Except String Bool × List RemoteCall :=
  contractSupportsInterfaceAddr w address ERC721_METADATA_INTERFACE_ID

/-- Address-dispatch variant `contractSupportsBase721Interface`. -/
def contractSupportsBase721Interface (w : String → Erc721Contract)
    (address : String) : Except String Bool × List RemoteCall :=
  contractSupportsInterfaceAddr w address ERC721_INTERFACE_ID

/-- Address-dispatch variant `getTokenURI`. -/
def getTokenURI (w : String → Erc721Contract) (address tokenId : String) :
    Except String String × List RemoteCall :=
  match contractSupportsMetadataInterfaceAddr w address with
  | (Except.error e, log) => (Except.error e, log)
  | (Except.ok supportsMetadata, log) =>
    if supportsMetadata then
      ((w address).tokenURIResp tokenId, log ++ [RemoteCall.tokenURICall tokenId])
    else (Except.error metadataUnsupportedMsg, log)

/-- Address-dispatch variant `getAssetSymbol`: one direct remote call. -/
def getAssetSymbol (w : String → Erc721Contract) (address : String) :
    Except String String × List RemoteCall :=
  ((w address).symbolResp, [RemoteCall.symbolCall])

/-- Address-dispatch variant `getAssetName`: one direct remote call. -/
def getAssetName (w : String → Erc721Contract) (address : String) :
    Except String String × List RemoteCall :=
  ((w address).nameResp, [RemoteCall.nameCall])

/-- `ERC721Standard.getDetails`: base and metadata checks (both issued);
if metadata is supported, symbol and name (both issued), and a tokenURI
lookup only when a tokenId was supplied (via `getTokenURI`, which re-checks
metadata support); the aggregate is returned only when the base check
reported true, else the fixed domain error; any remote failure propagates. -/
def getDetails (w : String → Erc721Contract) (address : String)
    (tokenId : Option String) : Except String AssetDetails × List RemoteCall :=
  match contractSupportsBase721Interface w address,
        contractSupportsMetadataInterfaceAddr w address with
  | (Except.error e, log1), (_, log2) => (Except.error e, log1 ++ log2)
  | (Except.ok _, log1), (Except.error e, log2) => (Except.error e, log1 ++ log2)
  | (Except.ok isERC721, log1), (Except.ok supportsMetadata, log2) =>
    let log0 := log1 ++ log2
    if supportsMetadata then
      match getAssetSymbol w address, getAssetName w address with
      | (Except.error e, log3), (_, log4) => (Except.error e, log0 ++ log3 ++ log4)
      | (Except.ok _, log3), (Except.error e, log4) => (Except.error e, log0 ++ log3 ++ log4)
      | (Except.ok sym, log3), (Except.ok nm, log4) =>
        let log5 := log0 ++ log3 ++ log4
        match tokenId with
        | some tid =>
          match getTokenURI w address tid with
          | (Except.error e, log6) => (Except.error e, log5 ++ log6)
          | (Except.ok uri, log6) =>
            if isERC721 then
              (Except.ok ⟨ERC721, some uri, some sym, some nm⟩, log5 ++ log6)
            else (Except.error notValidERC721Msg, log5 ++ log6)
        | none =>
          if isERC721 then (Except.ok ⟨ERC721, none, some sym, some nm⟩, log5)
          else (Except.error notValidERC721Msg, log5)
    else
      if isERC721 then (Except.ok ⟨ERC721, none, none, none⟩, log0)
      else (Except.error notValidERC721Msg, log0)

/-- A sample contract that supports nothing: every interface probe reports
false, all other calls succeed. -/
def cNoMeta : Erc721Contract :=
  { supportsInterfaceResp := fun _ => Except.ok false,
    tokenURIResp := fun _ => Except.ok "uri",
    nameResp := Except.ok "Name",
    symbolResp := Except.ok "SYM",
    ownerOfResp := fun _ => Except.ok "owner",
    tokenOfOwnerByIndexResp := fun _ _ => Except.ok "0" }

/-- A sample well-behaved contract supporting every interface. -/
def cGood : Erc721Contract :=
  { supportsInterfaceResp := fun _ => Except.ok true,
    tokenURIResp := fun _ => Except.ok "uri",
    nameResp := Except.ok "Name",
    symbolResp := Except.ok "SYM",
    ownerOfResp := fun _ => Except.ok "owner",
    tokenOfOwnerByIndexResp := fun _ _ => Except.ok "0" }

/-- A sample contract whose base-interface probe reports true but whose
metadata-interface probe rejects. -/
def cBoom : Erc721Contract :=
  { supportsInterfaceResp := fun iid =>
      if iid = ERC721_INTERFACE_ID then Except.ok true else Except.error "boom",
    tokenURIResp := fun _ => Except.ok "uri",
    nameResp := Except.ok "Name",
    symbolResp := Except.ok "SYM",
    ownerOfResp := fun _ => Except.ok "owner",
    tokenOfOwnerByIndexResp := fun _ _ => Except.ok "0" }


/-! ## Association-list lemmas -/

theorem lookupId_insert_self (m : List (String × ContactEntry)) (k : String) (v : ContactEntry) :
    lookupId (insertId m k v) k = some v := by
  induction m with
  | nil => simp [insertId, lookupId]
  | cons p ps ih =>
    by_cases h : p.1 = k
    · simp [insertId, h, lookupId]
    · simp [insertId, h, lookupId, ih]

theorem lookupId_insert_ne (m : List (String × ContactEntry)) {k k' : String}
    (v : ContactEntry) (h : ¬ k' = k) :
    lookupId (insertId m k v) k' = lookupId m k' := by
  have hkk : ¬ k = k' := fun hh => h hh.symm
  induction m with
  | nil => simp [insertId, lookupId, hkk]
  | cons p ps ih =>
    by_cases hp : p.1 = k
    · have hpk : ¬ p.1 = k' := by rw [hp]; exact hkk
      simp [insertId, hp, lookupId, hkk, hpk]
    · by_cases hq : p.1 = k'
      · simp [insertId, hp, lookupId, hq, h]
      · simp [insertId, hp, lookupId, hq, ih]

theorem insertId_of_absent {m : List (String × ContactEntry)} {k : String}
    (v : ContactEntry) (h : lookupId m k = none) : insertId m k v = m ++ [(k, v)] := by
  induction m with
  | nil => simp [insertId]
  | cons p ps ih =>
    by_cases hp : p.1 = k
    · simp [lookupId, hp] at h
    · simp only [lookupId, hp, if_false] at h
      simp [insertId, hp, ih h]

theorem lookupId_append_of_some {m : List (String × ContactEntry)} {k : String}
    {v : ContactEntry} (t : List (String × ContactEntry)) (h : lookupId m k = some v) :
    lookupId (m ++ t) k = some v := by
  induction m with
  | nil => simp [lookupId] at h
  | cons p ps ih =>
    by_cases hp : p.1 = k
    · simp only [lookupId, hp, if_true] at h
      simp [List.cons_append, lookupId, hp, h]
    · simp only [lookupId, hp, if_false] at h
      simp only [List.cons_append, lookupId, hp, if_false]
      exact ih h

theorem lookupId_insert_cases {m : List (String × ContactEntry)} {k0 k : String}
    {v e : ContactEntry} (h : lookupId (insertId m k0 v) k = some e) :
    (k = k0 ∧ e = v) ∨ lookupId m k = some e := by
  by_cases hk : k = k0
  · subst hk
    rw [lookupId_insert_self] at h
    exact Or.inl ⟨rfl, (Option.some.injEq _ _ ▸ h).symm⟩
  · rw [lookupId_insert_ne m v hk] at h
    exact Or.inr h

theorem memB_iff {A : List String} {a : String} : memB A a = true ↔ a ∈ A := by
  induction A with
  | nil => simp [memB]
  | cons x xs ih =>
    by_cases hx : x = a
    · simp [memB, hx]
    · simp [memB, hx, ih, Ne.symm hx]

theorem lookupId_eq_none_iff {m : List (String × ContactEntry)} {k : String} :
    lookupId m k = none ↔ k ∉ m.map Prod.fst := by
  induction m with
  | nil => simp [lookupId]
  | cons p ps ih =>
    by_cases hp : p.1 = k
    · simp [lookupId, hp]
    · simp [lookupId, hp, ih, Ne.symm hp]

theorem lookupId_removeId_self (m : List (String × ContactEntry)) (k : String) :
    lookupId (removeId m k) k = none := by
  induction m with
  | nil => simp [removeId, lookupId]
  | cons p ps ih =>
    by_cases hp : p.1 = k
    · simp [removeId, hp, ih]
    · simp [removeId, hp, lookupId, ih]

theorem lookupId_removeId_ne (m : List (String × ContactEntry)) {k k' : String}
    (h : ¬ k' = k) : lookupId (removeId m k) k' = lookupId m k' := by
  have hk : ¬ k = k' := fun hh => h hh.symm
  induction m with
  | nil => simp [removeId]
  | cons p ps ih =>
    by_cases hp : p.1 = k
    · simp [removeId, hp, lookupId, hk, ih]
    · by_cases hq : p.1 = k'
      · simp [removeId, hp, lookupId, hq, h]
      · simp [removeId, hp, lookupId, hq, ih]

theorem lookupId_keepIn (m : List (String × ContactEntry)) (A : List String) (k : String) :
    lookupId (keepIn m A) k = if memB A k then lookupId m k else none := by
  induction m with
  | nil => simp [keepIn, lookupId]
  | cons p ps ih =>
    by_cases hp : memB A p.1
    · by_cases hq : p.1 = k
      · subst hq
        simp [keepIn, hp, lookupId]
      · simp [keepIn, hp, lookupId, hq, ih]
    · by_cases hq : p.1 = k
      · subst hq
        simp [keepIn, hp, lookupId, ih]
      · simp [keepIn, hp, lookupId, hq, ih]

theorem lookupId_dropIn (m : List (String × ContactEntry)) (A : List String) (k : String) :
    lookupId (dropIn m A) k = if memB A k then none else lookupId m k := by
  induction m with
  | nil => simp [dropIn, lookupId]
  | cons p ps ih =>
    by_cases hp : memB A p.1
    · by_cases hq : p.1 = k
      · subst hq
        simp [dropIn, hp, lookupId, ih]
      · simp [dropIn, hp, lookupId, hq, ih]
    · by_cases hq : p.1 = k
      · subst hq
        simp [dropIn, hp, lookupId]
      · simp [dropIn, hp, lookupId, hq, ih]

theorem dropIn_sublist (m : List (String × ContactEntry)) (A : List String) :
    List.Sublist (dropIn m A) m := by
  induction m with
  | nil => simp [dropIn]
  | cons p ps ih =>
    by_cases hp : memB A p.1
    · simp only [dropIn, hp, if_true]
      exact ih.cons p
    · simp only [dropIn, hp, if_false]
      exact ih.cons₂ p

theorem lookupId_of_head {m : List (String × ContactEntry)} {p : String × ContactEntry}
    (h : m.head? = some p) : lookupId m p.1 = some p.2 := by
  cases m with
  | nil => simp at h
  | cons q qs =>
    simp at h
    subst h
    simp [lookupId]

theorem lookupId_insertAll_of_not_mem {ps : List (String × ContactEntry)} {k : String}
    (acc : List (String × ContactEntry)) (h : k ∉ ps.map Prod.fst) :
    lookupId (insertAll acc ps) k = lookupId acc k := by
  induction ps generalizing acc with
  | nil => simp [insertAll]
  | cons q qs ih =>
    simp only [List.map_cons, List.mem_cons] at h
    push_neg at h
    have step : insertAll acc (q :: qs) = insertAll (insertId acc q.1 q.2) qs := rfl
    rw [step, ih _ h.2, lookupId_insert_ne _ _ h.1]

theorem lookupId_insertAll_of_lookup {ps : List (String × ContactEntry)} {k : String}
    {e : ContactEntry} (acc : List (String × ContactEntry))
    (hnd : (ps.map Prod.fst).Nodup) (h : lookupId ps k = some e) :
    lookupId (insertAll acc ps) k = some e := by
  induction ps generalizing acc with
  | nil => simp [lookupId] at h
  | cons q qs ih =>
    simp only [List.map_cons, List.nodup_cons] at hnd
    have step : insertAll acc (q :: qs) = insertAll (insertId acc q.1 q.2) qs := rfl
    by_cases hq : q.1 = k
    · simp only [lookupId, hq, if_true] at h
      rw [step, lookupId_insertAll_of_not_mem _ (hq ▸ hnd.1), hq, lookupId_insert_self]
      exact h
    · simp only [lookupId, hq, if_false] at h
      rw [step]
      exact ih _ hnd.2 h

/-! ## Lemmas about the addIdentities loop -/

theorem addIdentitiesLoop_grows (checksum : String → String) (addrs : List String)
    (ids : List (String × ContactEntry)) :
    ∃ t, addIdentitiesLoop checksum addrs ids = ids ++ t := by
  induction addrs generalizing ids with
  | nil => exact ⟨[], by simp [addIdentitiesLoop]⟩
  | cons a rest ih =>
    cases hl : lookupId ids (checksum a) with
    | some v =>
      obtain ⟨t, ht⟩ := ih ids
      exact ⟨t, by simp [addIdentitiesLoop, hl, ht]⟩
    | none =>
      obtain ⟨t, ht⟩ :=
        ih (insertId ids (checksum a) (freshEntry (checksum a) (ids.length + 1)))
      refine ⟨(checksum a, freshEntry (checksum a) (ids.length + 1)) :: t, ?_⟩
      simp only [addIdentitiesLoop, hl]
      rw [ht, insertId_of_absent _ hl, List.append_assoc]
      rfl

theorem addIdentitiesLoop_lookup_preserved (checksum : String → String)
    (addrs : List String) {ids : List (String × ContactEntry)} {k : String}
    {e : ContactEntry} (h : lookupId ids k = some e) :
    lookupId (addIdentitiesLoop checksum addrs ids) k = some e := by
  obtain ⟨t, ht⟩ := addIdentitiesLoop_grows checksum addrs ids
  rw [ht]
  exact lookupId_append_of_some t h

theorem addIdentitiesLoop_isSome_mono (checksum : String → String)
    (addrs : List String) {ids : List (String × ContactEntry)} {k : String}
    (h : (lookupId ids k).isSome = true) :
    (lookupId (addIdentitiesLoop checksum addrs ids) k).isSome = true := by
  cases he : lookupId ids k with
  | none => rw [he] at h; simp at h
  | some e =>
    rw [addIdentitiesLoop_lookup_preserved checksum addrs he]
    rfl

theorem addIdentitiesLoop_ensures (checksum : String → String)
    {addrs : List String} {a : String} (ha : a ∈ addrs)
    (ids : List (String × ContactEntry)) :
    (lookupId (addIdentitiesLoop checksum addrs ids) (checksum a)).isSome = true := by
  induction addrs generalizing ids with
  | nil => simp at ha
  | cons b rest ih =>
    rcases List.mem_cons.mp ha with hab | ha2
    · subst hab
      cases hl : lookupId ids (checksum a) with
      | some v =>
        simp only [addIdentitiesLoop, hl]
        exact addIdentitiesLoop_isSome_mono checksum rest (by simp [hl])
      | none =>
        simp only [addIdentitiesLoop, hl]
        exact addIdentitiesLoop_isSome_mono checksum rest
          (by rw [lookupId_insert_self]; rfl)
    · cases hl : lookupId ids (checksum b) with
      | some v => simp only [addIdentitiesLoop, hl]; exact ih ha2 ids
      | none => simp only [addIdentitiesLoop, hl]; exact ih ha2 _

theorem addIdentitiesLoop_lookup_cases (checksum : String → String)
    {addrs : List String} {ids : List (String × ContactEntry)} {k : String}
    {e : ContactEntry} (h : lookupId (addIdentitiesLoop checksum addrs ids) k = some e) :
    lookupId ids k = some e ∨
      ((∃ a ∈ addrs, k = checksum a) ∧ ∃ n, e = freshEntry k n) := by
  induction addrs generalizing ids with
  | nil => exact Or.inl h
  | cons b rest ih =>
    cases hl : lookupId ids (checksum b) with
    | some v =>
      simp only [addIdentitiesLoop, hl] at h
      rcases ih h with h1 | h2
      · exact Or.inl h1
      · exact Or.inr ⟨⟨h2.1.choose, List.mem_cons_of_mem b h2.1.choose_spec.1,
          h2.1.choose_spec.2⟩, h2.2⟩
    | none =>
      simp only [addIdentitiesLoop, hl] at h
      rcases ih h with h1 | h2
      · rcases lookupId_insert_cases h1 with ⟨hk, he⟩ | h3
        · exact Or.inr ⟨⟨b, List.mem_cons_self b rest, hk⟩,
            ⟨ids.length + 1, by rw [he, hk]⟩⟩
        · exact Or.inl h3
      · exact Or.inr ⟨⟨h2.1.choose, List.mem_cons_of_mem b h2.1.choose_spec.1,
          h2.1.choose_spec.2⟩, h2.2⟩

theorem addIdentitiesLoop_positional (checksum : String → String)
    {addrs : List String} {ids : List (String × ContactEntry)} {i : Nat}
    {p : String × ContactEntry} (hlen : ids.length ≤ i)
    (h : (addIdentitiesLoop checksum addrs ids).get? i = some p) :
    p.2 = freshEntry p.1 (i + 1) ∧ lookupId ids p.1 = none ∧
      ∃ a ∈ addrs, p.1 = checksum a := by
  induction addrs generalizing ids with
  | nil =>
    simp only [addIdentitiesLoop] at h
    rw [List.get?_eq_none.mpr hlen] at h
    cases h
  | cons b rest ih =>
    cases hl : lookupId ids (checksum b) with
    | some v =>
      simp only [addIdentitiesLoop, hl] at h
      obtain ⟨h1, h2, a, ha, hk⟩ := ih hlen h
      exact ⟨h1, h2, a, List.mem_cons_of_mem b ha, hk⟩
    | none =>
      simp only [addIdentitiesLoop, hl] at h
      rcases Nat.lt_or_ge i (ids.length + 1) with hi | hi
      · have hieq : i = ids.length := Nat.le_antisymm (Nat.lt_succ_iff.mp hi) hlen
        subst hieq
        obtain ⟨t, ht⟩ := addIdentitiesLoop_grows checksum rest
          (insertId ids (checksum b) (freshEntry (checksum b) (ids.length + 1)))
        rw [ht, insertId_of_absent _ hl] at h
        rw [List.get?_append (by simp [Nat.lt_succ_self]), List.get?_concat_length] at h
        cases h
        exact ⟨rfl, hl, b, List.mem_cons_self b rest, rfl⟩
      · have hlen2 : (insertId ids (checksum b)
            (freshEntry (checksum b) (ids.length + 1))).length ≤ i := by
          rw [insertId_of_absent _ hl, List.length_append]
          simpa using hi
        obtain ⟨h1, h2, a, ha, hk⟩ := ih hlen2 h
        have h2' : lookupId ids p.1 = none := by
          by_cases hbp : checksum b = p.1
          · rw [← hbp] at h2 ⊢
            rw [lookupId_insert_self] at h2
            cases h2
          · rwa [lookupId_insert_ne _ _ (fun hh => hbp hh.symm)] at h2
        exact ⟨h1, h2', a, List.mem_cons_of_mem b ha, hk⟩

theorem addIdentitiesLoop_nodup (checksum : String → String)
    {addrs : List String} {ids : List (String × ContactEntry)}
    (hnd : (ids.map Prod.fst).Nodup) :
    ((addIdentitiesLoop checksum addrs ids).map Prod.fst).Nodup := by
  induction addrs generalizing ids with
  | nil => exact hnd
  | cons b rest ih =>
    cases hl : lookupId ids (checksum b) with
    | some v => simp only [addIdentitiesLoop, hl]; exact ih hnd
    | none =>
      simp only [addIdentitiesLoop, hl]
      refine ih ?_
      rw [insertId_of_absent _ hl, List.map_append]
      simp only [List.map_cons, List.map_nil]
      rw [List.nodup_append]
      exact ⟨hnd, List.nodup_singleton _,
        by simpa using fun hmem => (lookupId_eq_none_iff.mp hl) hmem⟩

/-! ## Lemmas about the updateIdentities reduce -/

theorem buildIds_lookup_not_mem (old : List (String × ContactEntry))
    {ab : List String} {k : String} (h : k ∉ ab) (i : Nat)
    (acc : List (String × ContactEntry)) :
    lookupId (buildIds old ab i acc) k = lookupId acc k := by
  induction ab generalizing i acc with
  | nil => rfl
  | cons a rest ih =>
    simp only [List.mem_cons] at h
    push_neg at h
    simp only [buildIds]
    rw [ih h.2, lookupId_insert_ne _ _ h.1]

theorem buildIds_positional (old : List (String × ContactEntry))
    {ab : List String} (hnd : ab.Nodup) :
    ∀ (j : Nat) (hj : j < ab.length) (i : Nat) (acc : List (String × ContactEntry)),
      lookupId (buildIds old ab i acc) (ab.get ⟨j, hj⟩) =
        some (mergedEntry old (ab.get ⟨j, hj⟩) (i + j + 1)) := by
  induction ab with
  | nil => intro j hj; simp at hj
  | cons a rest ih =>
    rcases List.nodup_cons.mp hnd with ⟨hna, hndr⟩
    intro j hj i acc
    cases j with
    | zero =>
      have hget : (a :: rest).get ⟨0, hj⟩ = a := rfl
      rw [hget]
      simp only [buildIds]
      rw [buildIds_lookup_not_mem old hna, lookupId_insert_self]
    | succ jj =>
      have hget : (a :: rest).get ⟨jj + 1, hj⟩ =
          rest.get ⟨jj, Nat.lt_of_succ_lt_succ hj⟩ := rfl
      rw [hget]
      simp only [buildIds]
      rw [ih hndr jj (Nat.lt_of_succ_lt_succ hj) (i + 1) _]
      have harith : i + 1 + jj + 1 = i + (jj + 1) + 1 := by omega
      rw [harith]

theorem buildIds_lookup_cases (old : List (String × ContactEntry))
    {ab : List String} {k : String} {e : ContactEntry} {i : Nat}
    {acc : List (String × ContactEntry)}
    (h : lookupId (buildIds old ab i acc) k = some e) :
    lookupId acc k = some e ∨ (k ∈ ab ∧ ∃ n, e = mergedEntry old k n) := by
  induction ab generalizing i acc with
  | nil => exact Or.inl h
  | cons a rest ih =>
    simp only [buildIds] at h
    rcases ih h with h1 | h2
    · rcases lookupId_insert_cases h1 with ⟨hk, he⟩ | h3
      · exact Or.inr ⟨by rw [hk]; exact List.mem_cons_self a rest,
          ⟨i + 1, by rw [he, hk]⟩⟩
      · exact Or.inl h3
    · exact Or.inr ⟨List.mem_cons_of_mem a h2.1, h2.2⟩

/-! ## Nodup and sublist lemmas -/

theorem mem_keys_insertId {m : List (String × ContactEntry)} {k x : String}
    {v : ContactEntry} (h : x ∈ (insertId m k v).map Prod.fst) :
    x ∈ m.map Prod.fst ∨ x = k := by
  induction m with
  | nil => simp [insertId] at h; exact Or.inr h
  | cons p ps ih =>
    by_cases hp : p.1 = k
    · simp only [insertId, hp, if_true, List.map_cons, List.mem_cons] at h
      rcases h with h1 | h2
      · exact Or.inr h1
      · exact Or.inl (by simp [h2])
    · simp only [insertId, hp, if_false, List.map_cons, List.mem_cons] at h
      rcases h with h1 | h2
      · exact Or.inl (by simp [h1])
      · rcases ih h2 with h3 | h4
        · exact Or.inl (by simp [h3])
        · exact Or.inr h4

theorem insertId_nodup {m : List (String × ContactEntry)} (k : String)
    (v : ContactEntry) (hnd : (m.map Prod.fst).Nodup) :
    ((insertId m k v).map Prod.fst).Nodup := by
  induction m with
  | nil => simp [insertId]
  | cons p ps ih =>
    simp only [List.map_cons, List.nodup_cons] at hnd
    by_cases hp : p.1 = k
    · simp only [insertId, hp, if_true, List.map_cons, List.nodup_cons]
      exact ⟨by rw [← hp]; exact hnd.1, hnd.2⟩
    · simp only [insertId, hp, if_false, List.map_cons, List.nodup_cons]
      refine ⟨fun hmem => ?_, ih hnd.2⟩
      rcases mem_keys_insertId hmem with h1 | h2
      · exact hnd.1 h1
      · exact hp h2

theorem buildIds_nodup (old : List (String × ContactEntry)) (ab : List String)
    (i : Nat) {acc : List (String × ContactEntry)}
    (hnd : (acc.map Prod.fst).Nodup) :
    ((buildIds old ab i acc).map Prod.fst).Nodup := by
  induction ab generalizing i acc with
  | nil => exact hnd
  | cons a rest ih => exact ih (i + 1) (insertId_nodup _ _ hnd)

theorem keepIn_sublist (m : List (String × ContactEntry)) (A : List String) :
    List.Sublist (keepIn m A) m := by
  induction m with
  | nil => simp [keepIn]
  | cons p ps ih =>
    by_cases hp : memB A p.1
    · simp only [keepIn, hp, if_true]
      exact ih.cons₂ p
    · simp only [keepIn, hp, if_false]
      exact ih.cons p

theorem removeId_sublist (m : List (String × ContactEntry)) (k : String) :
    List.Sublist (removeId m k) m := by
  induction m with
  | nil => simp [removeId]
  | cons p ps ih =>
    by_cases hp : p.1 = k
    · simp only [removeId, hp, if_true]
      exact ih.cons p
    · simp only [removeId, hp, if_false]
      exact ih.cons₂ p

/-! ## Field characterizations of the operations -/

theorem addIdentities_identities (checksum : String → String) (s : PreferencesState)
    (addrs : List String) :
    (addIdentities checksum s addrs).identities =
      addIdentitiesLoop checksum addrs s.identities := rfl

theorem updateIdentities_identities (checksum : String → String) (s : PreferencesState)
    (addrs : List String) :
    (updateIdentities checksum s addrs).identities =
      buildIds s.identities (addrs.map checksum) 0 [] := rfl

theorem removeIdentity_identities (checksum : String → String) (s : PreferencesState)
    (a : String) :
    (removeIdentity checksum s a).identities = s.identities ∨
    (removeIdentity checksum s a).identities = removeId s.identities (checksum a) := by
  cases hl : lookupId s.identities (checksum a) with
  | none => simp [removeIdentity, hl]
  | some v =>
    simp only [removeIdentity, hl]
    split
    · exact Or.inr rfl
    · exact Or.inr rfl

theorem setAccountLabel_identities (checksum : String → String) (s : PreferencesState)
    (a l : String) :
    (setAccountLabel checksum s a l).identities =
      insertId s.identities (checksum a)
        { (lookupId s.identities (checksum a)).getD ⟨none, none⟩ with name := some l } := rfl

theorem syncIdentities_identities (checksum : String → String) (s : PreferencesState)
    (addrs : List String) :
    ((syncIdentities checksum s addrs).1).identities =
      addIdentitiesLoop checksum (addrs.map checksum)
        (keepIn s.identities (addrs.map checksum)) := by
  simp only [syncIdentities]
  split
  · rfl
  · rfl

theorem syncIdentities_lost (checksum : String → String) (s : PreferencesState)
    (addrs : List String) :
    ((syncIdentities checksum s addrs).1).lostIdentities =
      insertAll s.lostIdentities (dropIn s.identities (addrs.map checksum)) := by
  simp only [syncIdentities]
  split
  · rfl
  · rfl

theorem syncIdentities_ret (checksum : String → String) (s : PreferencesState)
    (addrs : List String) :
    (syncIdentities checksum s addrs).2 =
      ((syncIdentities checksum s addrs).1).selectedAddress := by
  simp only [syncIdentities]

theorem syncIdentities_selected_cases (checksum : String → String) (s : PreferencesState)
    (addrs : List String) :
    (((syncIdentities checksum s addrs).1).selectedAddress = (addrs.map checksum).head? ∧
       (∀ sa, s.selectedAddress = some sa → ¬ sa ∈ addrs.map checksum)) ∨
    (∃ sa, s.selectedAddress = some sa ∧ sa ∈ addrs.map checksum ∧
       ((syncIdentities checksum s addrs).1).selectedAddress = some sa) := by
  cases hsel : s.selectedAddress with
  | none =>
    left
    constructor
    · simp only [syncIdentities, addIdentities, hsel]
      simp
    · intro sa hsa
      cases hsa
  | some sa =>
    by_cases hmem : memB (addrs.map checksum) sa
    · right
      refine ⟨sa, rfl, memB_iff.mp hmem, ?_⟩
      simp only [syncIdentities, addIdentities, hsel, hmem]
      simp
    · left
      constructor
      · simp only [syncIdentities, addIdentities, hsel, hmem]
        simp
      · intro sb hsb
        cases hsb
        exact fun hm => hmem (memB_iff.mpr hm)

/-! ## Preservation of the identities invariant -/

theorem identitiesInv_initial (checksum : String → String) :
    identitiesInv checksum initialState := by
  constructor
  · simp [initialState]
  · intro k e h
    simp [initialState, lookupId] at h

theorem identitiesInv_addIdentities {checksum : String → String}
    (hidem : ∀ x, checksum (checksum x) = checksum x) {s : PreferencesState}
    (hinv : identitiesInv checksum s) (addrs : List String) :
    identitiesInv checksum (addIdentities checksum s addrs) := by
  obtain ⟨hnd, hpt⟩ := hinv
  constructor
  · rw [addIdentities_identities]
    exact addIdentitiesLoop_nodup checksum hnd
  · intro k e h
    rw [addIdentities_identities] at h
    rcases addIdentitiesLoop_lookup_cases checksum h with h1 | ⟨⟨a, _, hk⟩, n, he⟩
    · exact hpt k e h1
    · right
      refine ⟨by rw [he]; rfl, ?_⟩
      rw [hk, hidem a]

theorem identitiesInv_removeIdentity {checksum : String → String}
    {s : PreferencesState} (hinv : identitiesInv checksum s) (a : String) :
    identitiesInv checksum (removeIdentity checksum s a) := by
  obtain ⟨hnd, hpt⟩ := hinv
  rcases removeIdentity_identities checksum s a with hid | hid
  · exact ⟨by rw [hid]; exact hnd, by rw [hid]; exact hpt⟩
  · constructor
    · rw [hid]
      exact List.Nodup.sublist ((removeId_sublist s.identities (checksum a)).map Prod.fst) hnd
    · intro k e h
      rw [hid] at h
      by_cases hk : k = checksum a
      · rw [hk, lookupId_removeId_self] at h
        cases h
      · rw [lookupId_removeId_ne _ hk] at h
        exact hpt k e h

theorem identitiesInv_setAccountLabel {checksum : String → String}
    {s : PreferencesState} (hinv : identitiesInv checksum s) (a l : String) :
    identitiesInv checksum (setAccountLabel checksum s a l) := by
  obtain ⟨hnd, hpt⟩ := hinv
  constructor
  · rw [setAccountLabel_identities]
    exact insertId_nodup _ _ hnd
  · intro k e h
    rw [setAccountLabel_identities] at h
    rcases lookupId_insert_cases h with ⟨hk, he⟩ | h1
    · cases hp : lookupId s.identities (checksum a) with
      | none =>
        left
        rw [he, hp]
        rfl
      | some o =>
        rcases hpt (checksum a) o hp with ho | ⟨ho, hfix⟩
        · left
          rw [he, hp]
          simpa using ho
        · right
          rw [he, hp, hk]
          exact ⟨by simpa using ho, hfix⟩
    · exact hpt k e h1

theorem identitiesInv_syncIdentities {checksum : String → String}
    (hidem : ∀ x, checksum (checksum x) = checksum x) {s : PreferencesState}
    (hinv : identitiesInv checksum s) (addrs : List String) :
    identitiesInv checksum (syncIdentities checksum s addrs).1 := by
  obtain ⟨hnd, hpt⟩ := hinv
  constructor
  · rw [syncIdentities_identities]
    exact addIdentitiesLoop_nodup checksum
      (List.Nodup.sublist ((keepIn_sublist s.identities _).map Prod.fst) hnd)
  · intro k e h
    rw [syncIdentities_identities] at h
    rcases addIdentitiesLoop_lookup_cases checksum h with h1 | ⟨⟨a, _, hk⟩, n, he⟩
    · rw [lookupId_keepIn] at h1
      rcases hb : memB (addrs.map checksum) k with _ | _
      · rw [hb] at h1; cases h1
      · rw [hb] at h1
        simp only [if_true] at h1
        exact hpt k e h1
    · right
      refine ⟨by rw [he]; rfl, ?_⟩
      rw [hk, hidem a]

theorem identitiesInv_updateIdentities {checksum : String → String}
    (hidem : ∀ x, checksum (checksum x) = checksum x) {s : PreferencesState}
    (hinv : identitiesInv checksum s) (addrs : List String) :
    identitiesInv checksum (updateIdentities checksum s addrs) := by
  obtain ⟨hnd, hpt⟩ := hinv
  constructor
  · rw [updateIdentities_identities]
    exact buildIds_nodup _ _ 0 (by simp)
  · intro k e h
    rw [updateIdentities_identities] at h
    rcases buildIds_lookup_cases _ h with h1 | ⟨hmem, n, he⟩
    · simp [lookupId] at h1
    · right
      constructor
      · rw [he]
        unfold mergedEntry
        cases hp : lookupId s.identities k with
        | none => rfl
        | some o =>
          rcases hpt k o hp with ho | ⟨ho, _⟩
          · simp [ho, overlayField]
          · simp [ho, overlayField]
      · rcases List.mem_map.mp hmem with ⟨a, _, hk⟩
        rw [← hk, hidem a]

theorem identitiesInv_of_reachable {checksum : String → String}
    (hidem : ∀ x, checksum (checksum x) = checksum x) {s : PreferencesState}
    (hr : Reachable checksum s) : identitiesInv checksum s := by
  induction hr with
  | init => exact identitiesInv_initial checksum
  | stepAddIdentities addrs _ ih => exact identitiesInv_addIdentities hidem ih addrs
  | stepAddToken a sym d _ ih => exact ih
  | stepRemoveIdentity a _ ih => exact identitiesInv_removeIdentity ih a
  | stepRemoveToken a _ ih => exact ih
  | stepSetAccountLabel a l _ ih => exact identitiesInv_setAccountLabel ih a l
  | stepSetFeatureFlag f b _ ih => exact ih
  | stepSyncIdentities addrs _ ih => exact identitiesInv_syncIdentities hidem ih addrs
  | stepUpdateIdentities addrs _ ih => exact identitiesInv_updateIdentities hidem ih addrs

theorem mem_of_head?_eq {l : List String} {a : String} (h : l.head? = some a) : a ∈ l := by
  cases l with
  | nil => cases h
  | cons x xs =>
    simp only [List.head?] at h
    cases h
    exact List.mem_cons_self _ _

/-! ## Claim C1 -/

/-- C1, counterexample: the claim that in every reachable state every key of
`identities` equals the checksummed form of the stored `address` field fails:
`setAccountLabel` on an address with no existing identity (here from the
initial state) stores a record with no `address` field at all. -/
theorem C1_cex :
    Reachable (fun x => x) (setAccountLabel (fun x => x) initialState "0x1" "friend") ∧
    keyMatchesAddressField (fun x => x)
      (setAccountLabel (fun x => x) initialState "0x1" "friend") = false :=
  ⟨Reachable.stepSetAccountLabel "0x1" "friend" Reachable.init, rfl⟩

/-- C1 (amended): for an idempotent checksum function and every reachable
state of the store, every key of `identities` whose record carries an
`address` field equals that field, which is its own checksummed form;
records created by `setAccountLabel` for unknown addresses carry no
`address` field and are the only exception to the claim as stated. -/
theorem C1_amended : ∀ (checksum : String → String),
    (∀ x, checksum (checksum x) = checksum x) →
    ∀ s, Reachable checksum s →
    ∀ k e a, lookupId s.identities k = some e → e.address = some a →
      a = k ∧ checksum a = k := by
  intro checksum hidem s hr k e a hl ha
  obtain ⟨_, hpt⟩ := identitiesInv_of_reachable hidem hr
  rcases hpt k e hl with h0 | ⟨h1, h2⟩
  · rw [h0] at ha
    cases ha
  · rw [h1] at ha
    cases ha
    exact ⟨rfl, h2⟩

/-- Witness for C1 (amended) at a concrete reachable state. -/
theorem C1_witness :
    lookupId (addIdentities (fun x => x) initialState ["0x1"]).identities "0x1" =
      some (freshEntry "0x1" 1) ∧
    (freshEntry "0x1" 1).address = some "0x1" ∧
    ("0x1" = "0x1" ∧ (fun x : String => x) "0x1" = "0x1") :=
  ⟨rfl, rfl,
    C1_amended (fun x => x) (fun _ => rfl) _
      (Reachable.stepAddIdentities ["0x1"] Reachable.init) "0x1" (freshEntry "0x1" 1)
      "0x1" rfl rfl⟩

/-! ## Claim C2 -/

/-- C2, counterexample: the no-dangling-selection claim fails as stated on a
reachable state: `syncIdentities` selects `0x1`, `updateIdentities` with
`["0x2"]` drops `0x1` while leaving it selected, and a `removeIdentity` of
the unrelated address `0x2` then leaves `selectedAddress = "0x1"` dangling
(`identities` is empty yet the selection is neither a key nor empty). -/
theorem C2_cex :
    Reachable (fun x => x)
      (removeIdentity (fun x => x)
        (updateIdentities (fun x => x)
          ((syncIdentities (fun x => x) initialState ["0x1", "0x2"]).1) ["0x2"]) "0x2") ∧
    noDangling
      (removeIdentity (fun x => x)
        (updateIdentities (fun x => x)
          ((syncIdentities (fun x => x) initialState ["0x1", "0x2"]).1) ["0x2"]) "0x2") = false :=
  ⟨Reachable.stepRemoveIdentity "0x2"
      (Reachable.stepUpdateIdentities ["0x2"]
        (Reachable.stepSyncIdentities ["0x1", "0x2"] Reachable.init)),
   by decide⟩

/-- C2 (amended): for an idempotent checksum function, `removeIdentity`
preserves the no-dangling-selection property (if the selected address was a
key or empty beforehand, afterwards it is a remaining key or empty), and
`syncIdentities` establishes it unconditionally.  The claim as stated fails
only for states whose selection is already dangling, which are reachable
through `updateIdentities`. -/
theorem C2_amended : ∀ (checksum : String → String),
    (∀ x, checksum (checksum x) = checksum x) →
    ∀ s : PreferencesState,
      (noDangling s = true → ∀ a, noDangling (removeIdentity checksum s a) = true) ∧
      (∀ addrs, noDangling (syncIdentities checksum s addrs).1 = true) := by
  intro checksum hidem s
  constructor
  · intro hnd a
    cases hrem : lookupId s.identities (checksum a) with
    | none =>
      simp only [removeIdentity, hrem]
      exact hnd
    | some v =>
      simp only [removeIdentity, hrem]
      split
      · cases hh : (removeId s.identities (checksum a)).head? with
        | none => simp [noDangling, hh]
        | some p => simp [noDangling, hh, lookupId_of_head hh]
      · next hsel =>
        cases hselv : s.selectedAddress with
        | none => simp [noDangling, hselv]
        | some k =>
          have hk : ¬ k = checksum a := by
            intro hh
            exact hsel (by rw [hselv, hh])
          simp only [noDangling, hselv] at hnd ⊢
          rw [lookupId_removeId_ne _ hk]
          exact hnd
  · intro addrs
    have hens : ∀ a0, a0 ∈ addrs.map checksum →
        (lookupId ((syncIdentities checksum s addrs).1).identities a0).isSome = true := by
      intro a0 ha0
      rcases List.mem_map.mp ha0 with ⟨x, _, hx⟩
      have hfix : checksum a0 = a0 := by rw [← hx, hidem x]
      rw [syncIdentities_identities]
      have := addIdentitiesLoop_ensures checksum ha0
        (keepIn s.identities (addrs.map checksum))
      rwa [hfix] at this
    rcases syncIdentities_selected_cases checksum s addrs with ⟨hsel, _⟩ | ⟨sa, _, hmem, hsel⟩
    · cases hh : (addrs.map checksum).head? with
      | none => simp [noDangling, hsel, hh]
      | some a0 =>
        rw [hh] at hsel
        simp only [noDangling, hsel]
        rw [hens a0 (mem_of_head?_eq hh)]
        simp
    · simp only [noDangling, hsel]
      rw [hens sa hmem]
      simp

/-- Witness for C2 (amended) at a concrete state. -/
theorem C2_witness :
    noDangling twoIdState = true ∧
    noDangling (removeIdentity (fun x => x) twoIdState "0x1") = true ∧
    noDangling (syncIdentities (fun x => x) twoIdState ["0x2"]).1 = true :=
  ⟨rfl, (C2_amended (fun x => x) (fun _ => rfl) twoIdState).1 rfl "0x1",
   (C2_amended (fun x => x) (fun _ => rfl) twoIdState).2 ["0x2"]⟩

/-! ## Claim C3 -/

/-- C3: for an idempotent checksum and a state with distinct identity keys,
`syncIdentities` moves every identity whose address is absent from the
canonical list into `lostIdentities` (overwriting prior lost entries) and
out of `identities`, keeps identities whose address is present unchanged,
gives addresses with no current identity (including formerly lost ones) a
fresh default-named identity, reselects the list's first element when the
selected address is not in the list, returns the resulting selected
address, and on the concrete example `syncIdentities ["0x2"]` from
identities `{0x1, 0x2}` with `0x1` selected moves `0x1` to lost, keeps
`0x2` and returns `0x2`. -/
theorem C3_syncIdentities : ∀ (checksum : String → String),
    (∀ x, checksum (checksum x) = checksum x) →
    ∀ s : PreferencesState, (s.identities.map Prod.fst).Nodup →
    ∀ addrs : List String,
      (∀ k e, lookupId s.identities k = some e → ¬ k ∈ addrs.map checksum →
        lookupId ((syncIdentities checksum s addrs).1).lostIdentities k = some e ∧
        lookupId ((syncIdentities checksum s addrs).1).identities k = none) ∧
      (∀ k e, lookupId s.identities k = some e → k ∈ addrs.map checksum →
        lookupId ((syncIdentities checksum s addrs).1).identities k = some e) ∧
      (∀ k, k ∈ addrs.map checksum → lookupId s.identities k = none →
        ∃ n, lookupId ((syncIdentities checksum s addrs).1).identities k =
          some (freshEntry k n)) ∧
      ((∀ sa, s.selectedAddress = some sa → ¬ sa ∈ addrs.map checksum) →
        ((syncIdentities checksum s addrs).1).selectedAddress =
          (addrs.map checksum).head?) ∧
      (syncIdentities checksum s addrs).2 =
        ((syncIdentities checksum s addrs).1).selectedAddress ∧
      syncIdentities (fun x => x) twoIdState ["0x2"] =
        ({ featureFlags := [], identities := [("0x2", entry2)],
           lostIdentities := [("0x1", entry1)], selectedAddress := some "0x2",
           tokens := [] }, some "0x2") := by
  intro checksum hidem s hnd addrs
  have hkeysub : ((dropIn s.identities (addrs.map checksum)).map Prod.fst).Nodup :=
    List.Nodup.sublist ((dropIn_sublist _ _).map Prod.fst) hnd
  refine ⟨?_, ?_, ?_, ?_, syncIdentities_ret checksum s addrs, by decide⟩
  · intro k e hke hkA
    have hmemB : memB (addrs.map checksum) k = false := by
      cases hb : memB (addrs.map checksum) k
      · rfl
      · exact absurd (memB_iff.mp hb) hkA
    constructor
    · rw [syncIdentities_lost]
      apply lookupId_insertAll_of_lookup _ hkeysub
      rw [lookupId_dropIn, hmemB]
      simpa using hke
    · rw [syncIdentities_identities]
      cases hl' : lookupId (addIdentitiesLoop checksum (addrs.map checksum)
          (keepIn s.identities (addrs.map checksum))) k with
      | none => rfl
      | some e' =>
        exfalso
        rcases addIdentitiesLoop_lookup_cases checksum hl' with h1 | ⟨⟨a, haA, hk⟩, _, _⟩
        · rw [lookupId_keepIn, hmemB] at h1
          simp at h1
        · rcases List.mem_map.mp haA with ⟨x, hxmem, hx⟩
          apply hkA
          rw [hk, ← hx, hidem x]
          exact List.mem_map.mpr ⟨x, hxmem, rfl⟩
  · intro k e hke hkA
    rw [syncIdentities_identities]
    apply addIdentitiesLoop_lookup_preserved
    rw [lookupId_keepIn, memB_iff.mpr hkA]
    simpa using hke
  · intro k hkA hnone
    have hfix : checksum k = k := by
      rcases List.mem_map.mp hkA with ⟨x, _, hx⟩
      rw [← hx, hidem x]
    have hiss := addIdentitiesLoop_ensures checksum hkA
      (keepIn s.identities (addrs.map checksum))
    rw [hfix] at hiss
    cases hl' : lookupId (addIdentitiesLoop checksum (addrs.map checksum)
        (keepIn s.identities (addrs.map checksum))) k with
    | none => rw [hl'] at hiss; cases hiss
    | some e' =>
      rcases addIdentitiesLoop_lookup_cases checksum hl' with h1 | ⟨_, n, he⟩
      · rw [lookupId_keepIn, hnone] at h1
        simp at h1
      · exact ⟨n, by rw [syncIdentities_identities, hl', he]⟩
  · intro hnot
    rcases syncIdentities_selected_cases checksum s addrs with ⟨hsel, _⟩ | ⟨sa, hs, hmem, _⟩
    · exact hsel
    · exact absurd hmem (hnot sa hs)

/-- Witness for C3 on the concrete two-identity example. -/
theorem C3_witness :
    ((twoIdState.identities.map Prod.fst).Nodup ∧
     lookupId twoIdState.identities "0x1" = some entry1 ∧
     ¬ "0x1" ∈ (["0x2"] : List String).map (fun x => x)) ∧
    (lookupId ((syncIdentities (fun x => x) twoIdState ["0x2"]).1).lostIdentities "0x1" =
       some entry1 ∧
     lookupId ((syncIdentities (fun x => x) twoIdState ["0x2"]).1).identities "0x1" =
       none) :=
  ⟨⟨by decide, rfl, by decide⟩,
   ((C3_syncIdentities (fun x => x) (fun _ => rfl) twoIdState (by decide) ["0x2"]).1)
     "0x1" entry1 rfl (by decide)⟩

/-! ## Claim C4 -/

/-- C4: `updateIdentities` wholesale-replaces `identities`: any key outside
the (checksummed) input list is dropped, the address at position `j` of a
duplicate-free input gets the entry numbered `Account (j+1)` with the old
record's fields overlaid (so an existing custom name is preserved), and
`lostIdentities` is left untouched — no trace of dropped identities — which
makes `updateIdentities` observably different from `syncIdentities` on the
same input. -/
theorem C4_updateIdentities : ∀ (checksum : String → String) (s : PreferencesState)
    (addrs : List String),
      (updateIdentities checksum s addrs).lostIdentities = s.lostIdentities ∧
      (∀ k, ¬ k ∈ addrs.map checksum →
        lookupId (updateIdentities checksum s addrs).identities k = none) ∧
      ((addrs.map checksum).Nodup →
        ∀ (j : Nat) (hj : j < (addrs.map checksum).length),
          lookupId (updateIdentities checksum s addrs).identities
              ((addrs.map checksum).get ⟨j, hj⟩) =
            some (mergedEntry s.identities ((addrs.map checksum).get ⟨j, hj⟩) (j + 1))) ∧
      ((addrs.map checksum).Nodup →
        ∀ k nm o, lookupId s.identities k = some o → o.name = some nm →
          k ∈ addrs.map checksum →
          ∃ e, lookupId (updateIdentities checksum s addrs).identities k = some e ∧
            e.name = some nm) ∧
      (updateIdentities (fun x => x) twoIdState ["0x2"] ≠
         (syncIdentities (fun x => x) twoIdState ["0x2"]).1 ∧
       lookupId (updateIdentities (fun x => x) twoIdState ["0x2"]).lostIdentities "0x1" =
         none ∧
       lookupId ((syncIdentities (fun x => x) twoIdState ["0x2"]).1).lostIdentities "0x1" =
         some entry1) := by
  intro checksum s addrs
  refine ⟨rfl, ?_, ?_, ?_, by decide, rfl, by decide⟩
  · intro k hk
    rw [updateIdentities_identities, buildIds_lookup_not_mem _ hk]
    rfl
  · intro hndA j hj
    have h := buildIds_positional s.identities hndA j hj 0 []
    rw [Nat.zero_add] at h
    rw [updateIdentities_identities]
    exact h
  · intro hndA k nm o hko hnm hkA
    rcases List.mem_iff_get.mp hkA with ⟨⟨j, hj⟩, hget⟩
    have h := buildIds_positional s.identities hndA j hj 0 []
    rw [Nat.zero_add, hget] at h
    refine ⟨mergedEntry s.identities k (j + 1),
      by rw [updateIdentities_identities]; exact h, ?_⟩
    unfold mergedEntry
    rw [hko]
    simp only [hnm, overlayField]

/-- Witness for C4: an existing custom name survives `updateIdentities`. -/
theorem C4_witness :
    (((["0x2"] : List String).map (fun x => x)).Nodup ∧
     lookupId twoIdState.identities "0x2" = some entry2 ∧
     entry2.name = some "Account 2" ∧
     "0x2" ∈ (["0x2"] : List String).map (fun x => x)) ∧
    (∃ e, lookupId (updateIdentities (fun x => x) twoIdState ["0x2"]).identities "0x2" =
       some e ∧ e.name = some "Account 2") :=
  ⟨⟨by decide, rfl, rfl, by decide⟩,
   (C4_updateIdentities (fun x => x) twoIdState ["0x2"]).2.2.2.1 (by decide) "0x2"
     "Account 2" entry2 rfl rfl (by decide)⟩

/-! ## Claim C10 -/

/-- C10: `updateIdentities` modifies only the `identities` field —
`featureFlags`, `lostIdentities`, `selectedAddress` and `tokens` are left
unchanged — and in particular a previously selected address absent from the
input list stays selected while no longer being a key of `identities`. -/
theorem C10_updateIdentities_frame : ∀ (checksum : String → String)
    (s : PreferencesState) (addrs : List String),
      (updateIdentities checksum s addrs).featureFlags = s.featureFlags ∧
      (updateIdentities checksum s addrs).lostIdentities = s.lostIdentities ∧
      (updateIdentities checksum s addrs).selectedAddress = s.selectedAddress ∧
      (updateIdentities checksum s addrs).tokens = s.tokens ∧
      (∀ k, s.selectedAddress = some k → ¬ k ∈ addrs.map checksum →
        (updateIdentities checksum s addrs).selectedAddress = some k ∧
        lookupId (updateIdentities checksum s addrs).identities k = none) := by
  intro checksum s addrs
  refine ⟨rfl, rfl, rfl, rfl, ?_⟩
  intro k hsel hk
  refine ⟨hsel, ?_⟩
  rw [updateIdentities_identities, buildIds_lookup_not_mem _ hk]
  rfl

/-- Witness for C10: dropping the selected address leaves it dangling. -/
theorem C10_witness :
    (twoIdState.selectedAddress = some "0x1" ∧
     ¬ "0x1" ∈ (["0x2"] : List String).map (fun x => x)) ∧
    ((updateIdentities (fun x => x) twoIdState ["0x2"]).selectedAddress = some "0x1" ∧
     lookupId (updateIdentities (fun x => x) twoIdState ["0x2"]).identities "0x1" = none) :=
  ⟨⟨rfl, by decide⟩,
   (C10_updateIdentities_frame (fun x => x) twoIdState ["0x2"]).2.2.2.2 "0x1" rfl
     (by decide)⟩

/-! ## Claim C8 -/

/-- C8: `addIdentities` leaves existing identities untouched, appends for
each new checksummed address a record `{ name: "Account N", address }` whose
`N` is the key count at the moment of its insertion plus one (so the entry
at zero-based position `i` is named `Account (i+1)`, giving consecutive
numbers to several new addresses in one call), adds only addresses from the
input, never duplicates a key, and on an empty store `["0x1", "0x2"]`
yields `Account 1` for `0x1` and `Account 2` for `0x2`. -/
theorem C8_addIdentities : ∀ (checksum : String → String) (s : PreferencesState)
    (addrs : List String),
      (∀ k e, lookupId s.identities k = some e →
        lookupId (addIdentities checksum s addrs).identities k = some e) ∧
      (∀ (i : Nat) (p : String × ContactEntry), s.identities.length ≤ i →
        ((addIdentities checksum s addrs).identities).get? i = some p →
        p.2 = freshEntry p.1 (i + 1) ∧ lookupId s.identities p.1 = none ∧
        ∃ a ∈ addrs, p.1 = checksum a) ∧
      (∀ k e, lookupId (addIdentities checksum s addrs).identities k = some e →
        lookupId s.identities k = some e ∨ ∃ a ∈ addrs, k = checksum a) ∧
      ((s.identities.map Prod.fst).Nodup →
        (((addIdentities checksum s addrs).identities).map Prod.fst).Nodup) ∧
      addIdentities (fun x => x) initialState ["0x1", "0x2"] =
        { featureFlags := [],
          identities := [("0x1", freshEntry "0x1" 1), ("0x2", freshEntry "0x2" 2)],
          lostIdentities := [], selectedAddress := some "", tokens := [] } := by
  intro checksum s addrs
  refine ⟨?_, ?_, ?_, ?_, by decide⟩
  · intro k e h
    rw [addIdentities_identities]
    exact addIdentitiesLoop_lookup_preserved checksum addrs h
  · intro i p hlen h
    rw [addIdentities_identities] at h
    exact addIdentitiesLoop_positional checksum hlen h
  · intro k e h
    rw [addIdentities_identities] at h
    rcases addIdentitiesLoop_lookup_cases checksum h with h1 | ⟨hex, _⟩
    · exact Or.inl h1
    · exact Or.inr hex
  · intro hnd
    rw [addIdentities_identities]
    exact addIdentitiesLoop_nodup checksum hnd

/-- Witness for C8: the first inserted identity is `Account 1`. -/
theorem C8_witness :
    (initialState.identities.length ≤ 0 ∧
     ((addIdentities (fun x => x) initialState ["0x1", "0x2"]).identities).get? 0 =
       some ("0x1", freshEntry "0x1" 1)) ∧
    (("0x1", freshEntry "0x1" 1).2 = freshEntry "0x1" 1 ∧
     lookupId initialState.identities "0x1" = none ∧
     ∃ a ∈ ["0x1", "0x2"], ("0x1", freshEntry "0x1" 1).1 = (fun x : String => x) a) :=
  ⟨⟨by decide, rfl⟩,
   (C8_addIdentities (fun x => x) initialState ["0x1", "0x2"]).2.1 0
     ("0x1", freshEntry "0x1" 1) (by decide) rfl⟩

/-! ## Claim C9 -/

theorem replaceFirstToken_split {ts : List Token} {a : String} (ne : Token)
    (h : hasTokenAddr ts a = true) :
    ∃ pre old suf, ts = pre ++ old :: suf ∧ (∀ t ∈ pre, ¬ t.address = a) ∧
      old.address = a ∧ replaceFirstToken ts a ne = pre ++ ne :: suf := by
  induction ts with
  | nil => simp [hasTokenAddr] at h
  | cons t ts ih =>
    by_cases ht : t.address = a
    · exact ⟨[], t, ts, by simp, by simp, ht, by simp [replaceFirstToken, ht]⟩
    · simp only [hasTokenAddr, ht, if_false] at h
      obtain ⟨pre, old, suf, h1, h2, h3, h4⟩ := ih h
      refine ⟨t :: pre, old, suf, by rw [h1]; rfl, ?_, h3,
        by simp [replaceFirstToken, ht, h4]⟩
      intro x hx
      rcases List.mem_cons.mp hx with h5 | h5
      · rw [h5]; exact ht
      · exact h2 x h5

/-- C9: `addToken` returns the state's updated token sequence; with a fresh
(checksummed) address it appends `{ address, symbol, decimals }` at the end;
with an address already present it replaces the first matching entry in
place, preserving its position; no validation constrains `symbol` or
`decimals` (both are arbitrary above); and adding the same address in a
different hex case (same checksum) overwrites instead of duplicating. -/
theorem C9_addToken : ∀ (checksum : String → String) (s : PreferencesState)
    (address symbol : String) (decimals : Int),
      ((addToken checksum s address symbol decimals).2 =
        (addToken checksum s address symbol decimals).1.tokens) ∧
      (hasTokenAddr s.tokens (checksum address) = false →
        (addToken checksum s address symbol decimals).2 =
          s.tokens ++ [⟨checksum address, symbol, decimals⟩]) ∧
      (hasTokenAddr s.tokens (checksum address) = true →
        ∃ pre old suf, s.tokens = pre ++ old :: suf ∧
          (∀ t ∈ pre, ¬ t.address = checksum address) ∧
          old.address = checksum address ∧
          (addToken checksum s address symbol decimals).2 =
            pre ++ (⟨checksum address, symbol, decimals⟩ : Token) :: suf) ∧
      (addToken sampleChecksum
          (addToken sampleChecksum initialState "0xabc" "TKN" 18).1
          "0xABC" "TKN2" 6).2 = [⟨"0xAbC", "TKN2", 6⟩] := by
  intro checksum s address symbol decimals
  refine ⟨rfl, ?_, ?_, by decide⟩
  · intro h
    simp [addToken, h]
  · intro h
    obtain ⟨pre, old, suf, h1, h2, h3, h4⟩ :=
      replaceFirstToken_split (⟨checksum address, symbol, decimals⟩ : Token) h
    exact ⟨pre, old, suf, h1, h2, h3, by simp [addToken, h, h4]⟩

/-- Witness for C9: a fresh address is appended at the end. -/
theorem C9_witness :
    hasTokenAddr initialState.tokens ((fun x : String => x) "0xA") = false ∧
    (addToken (fun x => x) initialState "0xA" "TKN" 18).2 =
      initialState.tokens ++ [⟨"0xA", "TKN", 18⟩] :=
  ⟨rfl, (C9_addToken (fun x => x) initialState "0xA" "TKN" 18).2.1 rfl⟩

/-! ## Claim C5 -/

/-- C5: whenever the metadata-interface probe reports `false`, both
`getTokenURI` (address-dispatch variant) and `getCollectibleTokenURI`
(bound-methods variant) fail with the fixed domain error and issue exactly
one remote call — the interface probe — never the tokenURI call. -/
theorem C5_getTokenURI_metadata_gate :
    (∀ (w : String → Erc721Contract) (address tokenId : String),
      (w address).supportsInterfaceResp ERC721_METADATA_INTERFACE_ID = Except.ok false →
      getTokenURI w address tokenId =
        (Except.error metadataUnsupportedMsg,
         [RemoteCall.supportsInterface ERC721_METADATA_INTERFACE_ID])) ∧
    (∀ (c : Erc721Contract) (tokenId : String),
      c.supportsInterfaceResp ERC721_METADATA_INTERFACE_ID = Except.ok false →
      getCollectibleTokenURI c tokenId =
        (Except.error metadataUnsupportedMsg,
         [RemoteCall.supportsInterface ERC721_METADATA_INTERFACE_ID])) := by
  constructor
  · intro w address tokenId h
    simp [getTokenURI, contractSupportsMetadataInterfaceAddr,
      contractSupportsInterfaceAddr, h]
  · intro c tokenId h
    simp [getCollectibleTokenURI, contractSupportsMetadataInterfaceBound,
      contractSupportsInterfaceBound, h]

/-- Witness for C5 on a contract rejecting every interface. -/
theorem C5_witness :
    cNoMeta.supportsInterfaceResp ERC721_METADATA_INTERFACE_ID = Except.ok false ∧
    getTokenURI (fun _ => cNoMeta) "0xA" "1" =
      (Except.error metadataUnsupportedMsg,
       [RemoteCall.supportsInterface ERC721_METADATA_INTERFACE_ID]) ∧
    getCollectibleTokenURI cNoMeta "1" =
      (Except.error metadataUnsupportedMsg,
       [RemoteCall.supportsInterface ERC721_METADATA_INTERFACE_ID]) :=
  ⟨rfl, C5_getTokenURI_metadata_gate.1 (fun _ => cNoMeta) "0xA" "1" rfl,
   C5_getTokenURI_metadata_gate.2 cNoMeta "1" rfl⟩

/-! ## Claim C7 -/

/-- C7: the two `contractSupportsInterface` variants have identical
observable behavior on the same contract: both issue exactly one remote
round trip, return exactly the boolean the remote call reports, and
propagate the remote error unchanged on failure. -/
theorem C7_supportsInterface_variants :
    ∀ (w : String → Erc721Contract) (address interfaceId : String),
      contractSupportsInterfaceAddr w address interfaceId =
        contractSupportsInterfaceBound (w address) interfaceId ∧
      (∀ b, (w address).supportsInterfaceResp interfaceId = Except.ok b →
        contractSupportsInterfaceAddr w address interfaceId =
          (Except.ok b, [RemoteCall.supportsInterface interfaceId]) ∧
        contractSupportsInterfaceBound (w address) interfaceId =
          (Except.ok b, [RemoteCall.supportsInterface interfaceId])) ∧
      (∀ e, (w address).supportsInterfaceResp interfaceId = Except.error e →
        contractSupportsInterfaceAddr w address interfaceId =
          (Except.error e, [RemoteCall.supportsInterface interfaceId]) ∧
        contractSupportsInterfaceBound (w address) interfaceId =
          (Except.error e, [RemoteCall.supportsInterface interfaceId])) := by
  intro w address interfaceId
  refine ⟨rfl, ?_, ?_⟩
  · intro b h
    constructor <;>
      simp [contractSupportsInterfaceAddr, contractSupportsInterfaceBound, h]
  · intro e h
    constructor <;>
      simp [contractSupportsInterfaceAddr, contractSupportsInterfaceBound, h]

/-- Witness for C7 on a contract answering `true`. -/
theorem C7_witness :
    cGood.supportsInterfaceResp "0x80ac58cd" = Except.ok true ∧
    contractSupportsInterfaceAddr (fun _ => cGood) "0xA" "0x80ac58cd" =
      (Except.ok true, [RemoteCall.supportsInterface "0x80ac58cd"]) ∧
    contractSupportsInterfaceBound cGood "0x80ac58cd" =
      (Except.ok true, [RemoteCall.supportsInterface "0x80ac58cd"]) :=
  ⟨rfl,
   ((C7_supportsInterface_variants (fun _ => cGood) "0xA" "0x80ac58cd").2.1 true rfl).1,
   ((C7_supportsInterface_variants (fun _ => cGood) "0xA" "0x80ac58cd").2.1 true rfl).2⟩

/-! ## Claim C6 -/

/-- C6, counterexample: the claim that `getDetails` returns the aggregate
whenever the base-interface check reports true fails: on a contract whose
base probe reports true but whose metadata probe rejects, `getDetails`
propagates the rejection instead of returning an aggregate. -/
theorem C6_cex :
    cBoom.supportsInterfaceResp ERC721_INTERFACE_ID = Except.ok true ∧
    (getDetails (fun _ => cBoom) "0xA" none).1 = Except.error "boom" :=
  ⟨rfl, rfl⟩

/-- C6 (amended): `getDetails` always fails when the base-interface check
reports false; it fails with the fixed domain error exactly when the
metadata branch raises no error (metadata unsupported, or the attempted
symbol/name/tokenURI calls all succeed), and when the base check reports
true and the metadata branch raises no error it returns the aggregate
`{ standard, tokenURI?, symbol?, name? }`; whichever boolean the base
check reports, a metadata-branch failure — a rejecting metadata probe,
symbol, name or tokenURI call — makes `getDetails` fail with exactly that
propagated error instead of the domain error or the aggregate. -/
theorem C6_getDetails_amended :
    ∀ (w : String → Erc721Contract) (address : String) (tokenId : Option String),
      ((w address).supportsInterfaceResp ERC721_INTERFACE_ID = Except.ok false →
        ∃ e, (getDetails w address tokenId).1 = Except.error e) ∧
      ((w address).supportsInterfaceResp ERC721_METADATA_INTERFACE_ID = Except.ok false →
        ((w address).supportsInterfaceResp ERC721_INTERFACE_ID = Except.ok false →
          (getDetails w address tokenId).1 = Except.error notValidERC721Msg) ∧
        ((w address).supportsInterfaceResp ERC721_INTERFACE_ID = Except.ok true →
          (getDetails w address tokenId).1 = Except.ok ⟨ERC721, none, none, none⟩)) ∧
      (∀ sym nm,
        (w address).supportsInterfaceResp ERC721_METADATA_INTERFACE_ID = Except.ok true →
        (w address).symbolResp = Except.ok sym →
        (w address).nameResp = Except.ok nm →
        (tokenId = none →
          ((w address).supportsInterfaceResp ERC721_INTERFACE_ID = Except.ok false →
            (getDetails w address none).1 = Except.error notValidERC721Msg) ∧
          ((w address).supportsInterfaceResp ERC721_INTERFACE_ID = Except.ok true →
            (getDetails w address none).1 =
              Except.ok ⟨ERC721, none, some sym, some nm⟩)) ∧
        (∀ tid uri, tokenId = some tid →
          (w address).tokenURIResp tid = Except.ok uri →
          ((w address).supportsInterfaceResp ERC721_INTERFACE_ID = Except.ok false →
            (getDetails w address (some tid)).1 = Except.error notValidERC721Msg) ∧
          ((w address).supportsInterfaceResp ERC721_INTERFACE_ID = Except.ok true →
            (getDetails w address (some tid)).1 =
              Except.ok ⟨ERC721, some uri, some sym, some nm⟩))) ∧
      (∀ b, (w address).supportsInterfaceResp ERC721_INTERFACE_ID = Except.ok b →
        (∀ e, (w address).supportsInterfaceResp ERC721_METADATA_INTERFACE_ID =
            Except.error e →
          (getDetails w address tokenId).1 = Except.error e) ∧
        ((w address).supportsInterfaceResp ERC721_METADATA_INTERFACE_ID = Except.ok true →
          (∀ e, (w address).symbolResp = Except.error e →
            (getDetails w address tokenId).1 = Except.error e) ∧
          (∀ sym e, (w address).symbolResp = Except.ok sym →
            (w address).nameResp = Except.error e →
            (getDetails w address tokenId).1 = Except.error e) ∧
          (∀ sym nm tid e, (w address).symbolResp = Except.ok sym →
            (w address).nameResp = Except.ok nm →
            (w address).tokenURIResp tid = Except.error e →
            (getDetails w address (some tid)).1 = Except.error e))) := by
  intro w address tokenId
  refine ⟨?_, ?_, ?_, ?_⟩
  · intro hbase
    cases hmeta : (w address).supportsInterfaceResp ERC721_METADATA_INTERFACE_ID with
    | error e =>
      exact ⟨e, by simp [getDetails, contractSupportsBase721Interface,
        contractSupportsMetadataInterfaceAddr, contractSupportsInterfaceAddr,
        hbase, hmeta]⟩
    | ok mb =>
      cases mb with
      | false =>
        exact ⟨notValidERC721Msg, by simp [getDetails, contractSupportsBase721Interface,
          contractSupportsMetadataInterfaceAddr, contractSupportsInterfaceAddr,
          hbase, hmeta]⟩
      | true =>
        cases hsym : (w address).symbolResp with
        | error e =>
          exact ⟨e, by simp [getDetails, contractSupportsBase721Interface,
            contractSupportsMetadataInterfaceAddr, contractSupportsInterfaceAddr,
            getAssetSymbol, getAssetName, hbase, hmeta, hsym]⟩
        | ok sy =>
          cases hnm : (w address).nameResp with
          | error e =>
            exact ⟨e, by simp [getDetails, contractSupportsBase721Interface,
              contractSupportsMetadataInterfaceAddr, contractSupportsInterfaceAddr,
              getAssetSymbol, getAssetName, hbase, hmeta, hsym, hnm]⟩
          | ok nm =>
            cases tokenId with
            | none =>
              exact ⟨notValidERC721Msg, by simp [getDetails,
                contractSupportsBase721Interface, contractSupportsMetadataInterfaceAddr,
                contractSupportsInterfaceAddr, getAssetSymbol, getAssetName,
                hbase, hmeta, hsym, hnm]⟩
            | some tid =>
              cases huri : (w address).tokenURIResp tid with
              | error e =>
                exact ⟨e, by simp [getDetails, contractSupportsBase721Interface,
                  contractSupportsMetadataInterfaceAddr, contractSupportsInterfaceAddr,
                  getAssetSymbol, getAssetName, getTokenURI, hbase, hmeta, hsym,
                  hnm, huri]⟩
              | ok u =>
                exact ⟨notValidERC721Msg, by simp [getDetails,
                  contractSupportsBase721Interface, contractSupportsMetadataInterfaceAddr,
                  contractSupportsInterfaceAddr, getAssetSymbol, getAssetName,
                  getTokenURI, hbase, hmeta, hsym, hnm, huri]⟩
  · intro hmeta
    constructor
    · intro hbase
      simp [getDetails, contractSupportsBase721Interface,
        contractSupportsMetadataInterfaceAddr, contractSupportsInterfaceAddr,
        hbase, hmeta]
    · intro hbase
      simp [getDetails, contractSupportsBase721Interface,
        contractSupportsMetadataInterfaceAddr, contractSupportsInterfaceAddr,
        hbase, hmeta, ERC721]
  · intro sym nm hmeta hsym hnm
    constructor
    · intro htid
      subst htid
      constructor
      · intro hbase
        simp [getDetails, contractSupportsBase721Interface,
          contractSupportsMetadataInterfaceAddr, contractSupportsInterfaceAddr,
          getAssetSymbol, getAssetName, hbase, hmeta, hsym, hnm]
      · intro hbase
        simp [getDetails, contractSupportsBase721Interface,
          contractSupportsMetadataInterfaceAddr, contractSupportsInterfaceAddr,
          getAssetSymbol, getAssetName, hbase, hmeta, hsym, hnm, ERC721]
    · intro tid uri htid huri
      subst htid
      constructor
      · intro hbase
        simp [getDetails, contractSupportsBase721Interface,
          contractSupportsMetadataInterfaceAddr, contractSupportsInterfaceAddr,
          getAssetSymbol, getAssetName, getTokenURI, hbase, hmeta, hsym, hnm, huri]
      · intro hbase
        simp [getDetails, contractSupportsBase721Interface,
          contractSupportsMetadataInterfaceAddr, contractSupportsInterfaceAddr,
          getAssetSymbol, getAssetName, getTokenURI, hbase, hmeta, hsym, hnm,
          huri, ERC721]
  · intro b hbase
    refine ⟨?_, ?_⟩
    · intro e hmeta
      simp [getDetails, contractSupportsBase721Interface,
        contractSupportsMetadataInterfaceAddr, contractSupportsInterfaceAddr,
        hbase, hmeta]
    · intro hmeta
      refine ⟨?_, ?_, ?_⟩
      · intro e hsym
        simp [getDetails, contractSupportsBase721Interface,
          contractSupportsMetadataInterfaceAddr, contractSupportsInterfaceAddr,
          getAssetSymbol, getAssetName, hbase, hmeta, hsym]
      · intro sym e hsym hnm
        simp [getDetails, contractSupportsBase721Interface,
          contractSupportsMetadataInterfaceAddr, contractSupportsInterfaceAddr,
          getAssetSymbol, getAssetName, hbase, hmeta, hsym, hnm]
      · intro sym nm tid e hsym hnm huri
        simp [getDetails, contractSupportsBase721Interface,
          contractSupportsMetadataInterfaceAddr, contractSupportsInterfaceAddr,
          getAssetSymbol, getAssetName, getTokenURI, hbase, hmeta, hsym, hnm, huri]

/-- Witness for C6 (amended): the aggregate path on a fully supporting
contract, and the propagation path on a contract whose metadata probe
rejects while its base probe reports true. -/
theorem C6_witness :
    (cGood.supportsInterfaceResp ERC721_METADATA_INTERFACE_ID = Except.ok true ∧
     cGood.symbolResp = Except.ok "SYM" ∧
     cGood.nameResp = Except.ok "Name" ∧
     cGood.supportsInterfaceResp ERC721_INTERFACE_ID = Except.ok true) ∧
    (getDetails (fun _ => cGood) "0xA" none).1 =
      Except.ok ⟨ERC721, none, some "SYM", some "Name"⟩ ∧
    (cBoom.supportsInterfaceResp ERC721_INTERFACE_ID = Except.ok true ∧
     cBoom.supportsInterfaceResp ERC721_METADATA_INTERFACE_ID = Except.error "boom") ∧
    (getDetails (fun _ => cBoom) "0xB" none).1 = Except.error "boom" :=
  ⟨⟨rfl, rfl, rfl, rfl⟩,
   (((C6_getDetails_amended (fun _ => cGood) "0xA" none).2.2.1 "SYM" "Name"
       rfl rfl rfl).1 rfl).2 rfl,
   ⟨rfl, rfl⟩,
   ((C6_getDetails_amended (fun _ => cBoom) "0xB" none).2.2.2 true rfl).1 "boom" rfl⟩
